import Mathlib

/-!
Verification of the data2json API core: the type inferencer, the dynamic
schema synthesizer, the Valibot-style validator, the retryable generation
driver, the metering gate and the request orchestrator, shallowly embedded
from the TypeScript source (`inferDataType`, `generateDynamicSchema`,
`RetryablePromise.retry` and the `POST /v1` handler).
-/

namespace Data2Json

/-! JavaScript/JSON values as seen by the handler.  `undefined` models the
JavaScript value `undefined` (absent properties, `schema?.[0]` on an empty
array); `null` models JSON `null`.  Objects are ordered association lists of
fields, arrays are ordered lists. -/

mutual

inductive JSValue where
  | undefined
  | null
  | bool (b : Bool)
  | num (n : Int)
  | str (s : String)
  | arr (xs : JList)
  | obj (fs : JFields)
deriving DecidableEq, Repr

inductive JList where
  | nil
  | cons (x : JSValue) (rest : JList)
deriving DecidableEq, Repr

inductive JFields where
  | nil
  | cons (k : String) (v : JSValue) (rest : JFields)
deriving DecidableEq, Repr

end

/-- First field bound to key `key`, as JavaScript property access `o[key]`
on a plain object (association lists here never carry duplicate keys for
values that originate from `JSON.parse`). -/
def jlookup : JFields → String → Option JSValue
  | .nil, _ => none
  | .cons k v r, key => if k = key then some v else jlookup r key

/-- The JavaScript `typeof` operator restricted to the values of `JSValue`:
`typeof undefined = "undefined"`, `typeof null = "object"`, and arrays and
objects are both `"object"`. -/
def typeofJS : JSValue → String
  | .undefined => "undefined"
  | .null => "object"
  | .bool _ => "boolean"
  | .num _ => "number"
  | .str _ => "string"
  | .arr _ => "object"
  | .obj _ => "object"

/-- Embedding of `schema?.hasOwnProperty("type")`: only a plain object can carry an own
`"type"` property; on `undefined`/`null` the optional chaining short-circuits
(yielding a falsy value), and primitives and arrays have no own `"type"`. -/
def hasTypeProp : JSValue → Bool
  | .obj fs => (jlookup fs "type").isSome
  | _ => false

/-- The value of the `"type"` property (`schema.type`), defaulting to
`undefined` when absent. -/
def getTypeProp : JSValue → JSValue
  | .obj fs => (jlookup fs "type").getD .undefined
  | _ => .undefined

/-- Embedding of `Array.isArray(schema)`. -/
def isArrayJS : JSValue → Bool
  | .arr _ => true
  | _ => false

/-- The `types` constant of the source: the five known schema kinds. -/
def typesList : List String := ["object", "array", "string", "boolean", "number"]

/-- Definition `inferDataType` from the source:

`if (!schema?.hasOwnProperty("type")) return Array.isArray(schema) ? "array" : typeof schema;`
`return types.includes(schema.type) ? schema.type : "object";`

`types.includes` compares with strict equality, so a non-string `"type"`
value never matches and falls back to `"object"`. -/
def inferDataType (schema : JSValue) : String :=
  if ¬ hasTypeProp schema then
    if isArrayJS schema then "array" else typeofJS schema
  else
    match getTypeProp schema with
    | .str t => if typesList.contains t then t else "object"
    | _ => "object"

example : inferDataType .undefined = "undefined" := by decide
example : inferDataType .null = "object" := by decide
example : inferDataType (.num 3) = "number" := by decide
example : inferDataType (.arr .nil) = "array" := by decide
example : inferDataType (.obj (.cons "type" (.str "string") .nil)) = "string" := by decide
example : inferDataType (.obj (.cons "type" (.str "weird") .nil)) = "object" := by decide
example : inferDataType (.obj (.cons "type" (.num 7) .nil)) = "object" := by decide
example : inferDataType (.obj (.cons "age" (.num 30) .nil)) = "object" := by decide

/-- Claim C4 as stated is false at `undefined`: `inferDataType` applies
JavaScript `typeof`, and `typeof undefined` is `"undefined"`, which is not
one of the five kinds and in particular is not `"object"`. -/
theorem inferDataType_undef_not_five :
    inferDataType JSValue.undefined ∉ typesList ∧ inferDataType JSValue.undefined ≠ "object" := by
  decide

/-- Claim C4 (amended): `inferDataType` is total over six kinds: every input
classifies to exactly one of `"object"`, `"array"`, `"string"`, `"boolean"`,
`"number"` or `"undefined"`, and the sixth kind `"undefined"` occurs exactly
for the absent/`undefined` node; every defined node classifies to one of the
five kinds, with `null` and unknown markers defaulting to `"object"`. -/
theorem inferDataType_total :
    ∀ v : JSValue, inferDataType v ∈ "undefined" :: typesList ∧
      (inferDataType v = "undefined" ↔ v = .undefined) := by
  intro v
  cases v with
  | undefined => decide
  | null => decide
  | bool b => constructor <;> simp [inferDataType, hasTypeProp, isArrayJS, typeofJS, typesList]
  | num n => constructor <;> simp [inferDataType, hasTypeProp, isArrayJS, typeofJS, typesList]
  | str s => constructor <;> simp [inferDataType, hasTypeProp, isArrayJS, typeofJS, typesList]
  | arr xs => constructor <;> simp [inferDataType, hasTypeProp, isArrayJS, typeofJS, typesList]
  | obj fs =>
    constructor
    · simp only [inferDataType]
      split
      · simp [isArrayJS, typeofJS, typesList]
      · split
        · rename_i t _
          split
          · rename_i ht
            exact List.mem_cons_of_mem _ (List.mem_of_elem_eq_true ht)
          · simp [typesList]
        · simp [typesList]
    · simp only [inferDataType]
      constructor
      · split
        · simp [isArrayJS, typeofJS]
        · split
          · rename_i t _
            split
            · rename_i ht
              intro h
              subst h
              have hm := List.mem_of_elem_eq_true ht
              simp [typesList] at hm
            · intro h
              simp at h
          · intro h
            simp at h
      · intro h
        exact JSValue.noConfusion h

/-! The Valibot schema values the synthesizer builds: `object(shape)`,
`array(elem)`, `string()`, `boolean()`, `number()` and `nullable(inner)`. -/

mutual

inductive VSchema where
  | vstring
  | vboolean
  | vnumber
  | vnullable (s : VSchema)
  | varray (s : VSchema)
  | vobject (shape : SFields)
deriving DecidableEq, Repr

inductive SFields where
  | nil
  | cons (k : String) (s : VSchema) (rest : SFields)
deriving DecidableEq, Repr

end

/-- Embedding of `schema?.[0]`: the first element of an array, property `"0"` of an
object, `undefined` otherwise (including on an empty array). -/
def getIndex0 : JSValue → JSValue
  | .arr (.cons x _) => x
  | .arr .nil => .undefined
  | .obj fs => (jlookup fs "0").getD .undefined
  | _ => .undefined

theorem sizeOf_jlookup_lt : ∀ {fs : JFields} {key : String} {x : JSValue},
    jlookup fs key = some x → sizeOf x < sizeOf fs
  | .nil, _, _, h => by simp [jlookup] at h
  | .cons k v r, key, x, h => by
    simp only [jlookup] at h
    split at h
    · cases h
      simp
      omega
    · have := sizeOf_jlookup_lt h
      simp
      omega

theorem sizeOf_JFields_pos (fs : JFields) : 1 ≤ sizeOf fs := by
  cases fs
  · simp
  · simp
    omega

theorem sizeOf_getIndex0_lt (v : JSValue) (h : inferDataType v = "array") :
    sizeOf (getIndex0 v) < sizeOf v := by
  cases v with
  | undefined => simp [inferDataType, hasTypeProp, isArrayJS, typeofJS] at h
  | null => simp [inferDataType, hasTypeProp, isArrayJS, typeofJS] at h
  | bool b => simp [inferDataType, hasTypeProp, isArrayJS, typeofJS] at h
  | num n => simp [inferDataType, hasTypeProp, isArrayJS, typeofJS] at h
  | str s => simp [inferDataType, hasTypeProp, isArrayJS, typeofJS] at h
  | arr xs =>
    cases xs with
    | nil => simp [getIndex0]
    | cons x r =>
      simp [getIndex0]
      omega
  | obj fs =>
    simp only [getIndex0]
    cases hl : jlookup fs "0" with
    | none =>
      have := sizeOf_JFields_pos fs
      simp
      omega
    | some x =>
      have := sizeOf_jlookup_lt hl
      simp
      omega

/-! `generateDynamicSchema` from the source: dispatch on `inferDataType`;
the `"object"` branch iterates (`for key in schema`) over the own fields,
skipping the literal field `"type"` (iterating nothing when the node is not
an object, e.g. `null`); the `"array"` branch recurses on `schema?.[0]`;
the three primitive branches and the defensive default produce nullable
primitive schemas. -/

mutual

def generateDynamicSchema (v : JSValue) : VSchema :=
  if inferDataType v = "object" then
    .vobject
      (match v with
        | .obj fs => genShape fs
        | _ => .nil)
  else if h : inferDataType v = "array" then
    .varray (generateDynamicSchema (getIndex0 v))
  else if inferDataType v = "string" then .vnullable .vstring
  else if inferDataType v = "boolean" then .vnullable .vboolean
  else if inferDataType v = "number" then .vnullable .vnumber
  else .vnullable .vstring
termination_by sizeOf v
decreasing_by
  all_goals first
    | exact sizeOf_getIndex0_lt v h
    | (simp
       omega)
    | simp

def genShape : JFields → SFields
  | .nil => .nil
  | .cons k x r =>
    if k = "type" then genShape r
    else .cons k (generateDynamicSchema x) (genShape r)
termination_by fs => sizeOf fs
decreasing_by
  all_goals first
    | (simp
       omega)
    | simp

end

/-! Branch equations of `generateDynamicSchema`, one per `switch` case. -/

theorem gen_obj_eq (fs : JFields) (h : inferDataType (.obj fs) = "object") :
    generateDynamicSchema (.obj fs) = .vobject (genShape fs) := by
  unfold generateDynamicSchema
  simp [h]

theorem gen_null_eq : generateDynamicSchema .null = .vobject .nil := by
  unfold generateDynamicSchema
  simp [inferDataType, hasTypeProp, isArrayJS, typeofJS]

theorem gen_array_eq (v : JSValue) (h : inferDataType v = "array") :
    generateDynamicSchema v = .varray (generateDynamicSchema (getIndex0 v)) := by
  conv_lhs => rw [generateDynamicSchema.eq_def]
  simp [h]

theorem gen_string_eq (v : JSValue) (h : inferDataType v = "string") :
    generateDynamicSchema v = .vnullable .vstring := by
  unfold generateDynamicSchema
  simp [h]

theorem gen_boolean_eq (v : JSValue) (h : inferDataType v = "boolean") :
    generateDynamicSchema v = .vnullable .vboolean := by
  unfold generateDynamicSchema
  simp [h]

theorem gen_number_eq (v : JSValue) (h : inferDataType v = "number") :
    generateDynamicSchema v = .vnullable .vnumber := by
  unfold generateDynamicSchema
  simp [h]

theorem gen_other_eq (v : JSValue) (h : inferDataType v ∉ typesList) :
    generateDynamicSchema v = .vnullable .vstring := by
  have h1 : ¬ inferDataType v = "object" := fun hx => h (by rw [hx]; decide)
  have h2 : ¬ inferDataType v = "array" := fun hx => h (by rw [hx]; decide)
  have h3 : ¬ inferDataType v = "string" := fun hx => h (by rw [hx]; decide)
  have h4 : ¬ inferDataType v = "boolean" := fun hx => h (by rw [hx]; decide)
  have h5 : ¬ inferDataType v = "number" := fun hx => h (by rw [hx]; decide)
  unfold generateDynamicSchema
  simp [h1, h2, h3, h4, h5]

theorem gen_undef_eq : generateDynamicSchema .undefined = .vnullable .vstring := by
  exact gen_other_eq _ (by decide)

theorem genShape_nil : genShape .nil = .nil := by
  rw [genShape.eq_def]

theorem genShape_cons (k : String) (x : JSValue) (r : JFields) :
    genShape (.cons k x r) =
      if k = "type" then genShape r
      else .cons k (generateDynamicSchema x) (genShape r) := by
  conv_lhs => rw [genShape.eq_def]

example : generateDynamicSchema (.obj (.cons "name" (.str "x") (.cons "score" (.num 1) .nil))) =
    .vobject (.cons "name" (.vnullable .vstring) (.cons "score" (.vnullable .vnumber) .nil)) := by
  simp [gen_obj_eq, genShape_cons, genShape_nil, gen_string_eq, gen_number_eq,
    inferDataType, hasTypeProp, isArrayJS, typeofJS, jlookup]

example : generateDynamicSchema (.obj (.cons "type" (.str "array")
      (.cons "0" (.num 3) .nil))) =
    .varray (.vnullable .vnumber) := by
  simp [gen_array_eq, gen_number_eq, inferDataType, hasTypeProp, isArrayJS, typeofJS,
    jlookup, getTypeProp, getIndex0, typesList]

example : generateDynamicSchema (.arr .nil) = .varray (.vnullable .vstring) := by
  simp [gen_array_eq, gen_undef_eq, inferDataType, hasTypeProp, isArrayJS, typeofJS, getIndex0]

/-! The Valibot `parse(schema, input)` call as a total function returning `none`
where the original throws a `ValiError`.  `object` validates every shape
entry against the correspondingly named input property (`undefined` when
absent) and outputs only the keys of the shape (unknown keys are stripped);
`array` validates elementwise; `nullable(inner)` accepts `null` or whatever
`inner` accepts; bare primitive schemas accept exactly their primitive. -/

mutual

def vparse : VSchema → JSValue → Option JSValue
  | .vnullable s, v => if v = .null then some .null else vparse s v
  | .vstring, v =>
    match v with
    | .str t => some (.str t)
    | _ => none
  | .vboolean, v =>
    match v with
    | .bool b => some (.bool b)
    | _ => none
  | .vnumber, v =>
    match v with
    | .num n => some (.num n)
    | _ => none
  | .varray s, v =>
    match v with
    | .arr xs =>
      match vparseList s xs with
      | some ys => some (.arr ys)
      | none => none
    | _ => none
  | .vobject shape, v =>
    match v with
    | .obj fields =>
      match vparseFields shape fields with
      | some gs => some (.obj gs)
      | none => none
    | _ => none
termination_by s v => (sizeOf s, sizeOf v)

def vparseList : VSchema → JList → Option JList
  | _, .nil => some .nil
  | s, .cons x r =>
    match vparse s x, vparseList s r with
    | some y, some ys => some (.cons y ys)
    | _, _ => none
termination_by s xs => (sizeOf s, sizeOf xs)

def vparseFields : SFields → JFields → Option JFields
  | .nil, _ => some .nil
  | .cons k s rest, fields =>
    match vparse s ((jlookup fields k).getD .undefined), vparseFields rest fields with
    | some y, some ys => some (.cons k y ys)
    | _, _ => none
termination_by sh fs => (sizeOf sh, sizeOf fs)

end

mutual

/-- The candidate document that mirrors the tree of a schema but holds `null` at
every leaf position (arrays are witnessed by one element). -/
def nullDocOf : VSchema → JSValue
  | .vobject shape => .obj (nullDocFields shape)
  | .varray s => .arr (.cons (nullDocOf s) .nil)
  | _ => .null

/-- Field-wise companion of `nullDocOf`. -/
def nullDocFields : SFields → JFields
  | .nil => .nil
  | .cons k s r => .cons k (nullDocOf s) (nullDocFields r)

end

mutual

/-- Every leaf of the schema is wrapped in `nullable`. -/
def allLeavesNullable : VSchema → Bool
  | .vobject shape => allLeavesNullableF shape
  | .varray s => allLeavesNullable s
  | .vnullable _ => true
  | _ => false

/-- Field-wise companion of `allLeavesNullable`. -/
def allLeavesNullableF : SFields → Bool
  | .nil => true
  | .cons _ s r => allLeavesNullable s && allLeavesNullableF r

end

/-- Key `k` does not occur among the keys of the shape. -/
def sKeyNotIn (k : String) : SFields → Bool
  | .nil => true
  | .cons k' _ r => if k' = k then false else sKeyNotIn k r

mutual

/-- No object node of the schema carries a duplicated field name. -/
def schemaKeysNodup : VSchema → Bool
  | .vobject shape => schemaShapeNodup shape
  | .varray s => schemaKeysNodup s
  | .vnullable s => schemaKeysNodup s
  | _ => true

/-- Shape-wise companion of `schemaKeysNodup`. -/
def schemaShapeNodup : SFields → Bool
  | .nil => true
  | .cons k s r => sKeyNotIn k r && schemaKeysNodup s && schemaShapeNodup r

end

/-- Key `k` does not occur among the keys of the fields. -/
def keyNotIn (k : String) : JFields → Bool
  | .nil => true
  | .cons k' _ r => if k' = k then false else keyNotIn k r

/-- Pairwise distinctness of the field names of one object literal. -/
def fieldsKeysFresh : JFields → Bool
  | .nil => true
  | .cons k _ r => keyNotIn k r && fieldsKeysFresh r

mutual

/-- The invariant every value produced by `JSON.parse` enjoys: no object
node carries a duplicated field name (JavaScript objects cannot). -/
def keysUnique : JSValue → Bool
  | .obj fs => fieldsKeysFresh fs && keysUniqueF fs
  | .arr xs => keysUniqueL xs
  | _ => true

def keysUniqueF : JFields → Bool
  | .nil => true
  | .cons _ v r => keysUnique v && keysUniqueF r

def keysUniqueL : JList → Bool
  | .nil => true
  | .cons x r => keysUnique x && keysUniqueL r

end

example : vparse (.vnullable .vnumber) .null = some .null := by simp [vparse]
example : vparse (.vnullable .vnumber) (.num 4) = some (.num 4) := by simp [vparse]
example : vparse (.vnullable .vnumber) (.str "4") = none := by simp [vparse]
example : vparse (.vnullable .vnumber) .undefined = none := by simp [vparse]

/-- Validating a shape against a document that binds an extra leading key the
shape never mentions gives the same outcome as without that binding. -/
theorem vparseFields_skip : ∀ (r : SFields) (k : String) (x : JSValue) (dfs : JFields),
    sKeyNotIn k r = true → vparseFields r (.cons k x dfs) = vparseFields r dfs
  | .nil, _, _, _, _ => by simp [vparseFields]
  | .cons k' s r', k, x, dfs, h => by
    have hk : ¬ k' = k := by
      intro he
      simp [sKeyNotIn, he] at h
    have hr : sKeyNotIn k r' = true := by
      simpa [sKeyNotIn, hk] using h
    have hk2 : ¬ k = k' := fun he => hk he.symm
    simp only [vparseFields, jlookup, if_neg hk2]
    rw [vparseFields_skip r' k x dfs hr]

mutual

/-- A schema all of whose leaves are nullable and whose object nodes carry
no duplicated keys accepts its own all-null document. -/
theorem vparse_nullDoc : ∀ (s : VSchema), allLeavesNullable s = true →
    schemaKeysNodup s = true → vparse s (nullDocOf s) = some (nullDocOf s)
  | .vstring, h, _ => by simp [allLeavesNullable] at h
  | .vboolean, h, _ => by simp [allLeavesNullable] at h
  | .vnumber, h, _ => by simp [allLeavesNullable] at h
  | .vnullable s, _, _ => by simp [nullDocOf, vparse]
  | .varray s, h, hn => by
    have ih := vparse_nullDoc s (by simpa [allLeavesNullable] using h)
      (by simpa [schemaKeysNodup] using hn)
    simp [nullDocOf, vparse, vparseList, ih]
  | .vobject sh, h, hn => by
    have ih := vparseFields_nullDoc sh (by simpa [allLeavesNullable] using h)
      (by simpa [schemaKeysNodup] using hn)
    simp [nullDocOf, vparse, ih]

theorem vparseFields_nullDoc : ∀ (sh : SFields), allLeavesNullableF sh = true →
    schemaShapeNodup sh = true → vparseFields sh (nullDocFields sh) = some (nullDocFields sh)
  | .nil, _, _ => by simp [nullDocFields, vparseFields]
  | .cons k s r, h, hn => by
    have h1 : allLeavesNullable s = true := by
      simp [allLeavesNullableF, Bool.and_eq_true] at h
      exact h.1
    have h2 : allLeavesNullableF r = true := by
      simp [allLeavesNullableF, Bool.and_eq_true] at h
      exact h.2
    have hk : sKeyNotIn k r = true := by
      simp [schemaShapeNodup, Bool.and_eq_true] at hn
      exact hn.1.1
    have hs : schemaKeysNodup s = true := by
      simp [schemaShapeNodup, Bool.and_eq_true] at hn
      exact hn.1.2
    have hr : schemaShapeNodup r = true := by
      simp [schemaShapeNodup, Bool.and_eq_true] at hn
      exact hn.2
    have ihs := vparse_nullDoc s h1 hs
    have ihr := vparseFields_nullDoc r h2 hr
    simp only [nullDocFields, vparseFields, jlookup, if_pos rfl, Option.getD_some]
    rw [vparseFields_skip r k (nullDocOf s) (nullDocFields r) hk]
    simp [ihs, ihr]

end

theorem keyNotIn_genShape : ∀ (fs : JFields) (k : String),
    keyNotIn k fs = true → sKeyNotIn k (genShape fs) = true
  | .nil, k, _ => by simp [genShape_nil, sKeyNotIn]
  | .cons k' x r, k, h => by
    have hk : ¬ k' = k := by
      intro he
      simp [keyNotIn, he] at h
    have hr : keyNotIn k r = true := by
      simpa [keyNotIn, hk] using h
    rw [genShape_cons]
    split
    · exact keyNotIn_genShape r k hr
    · simp only [sKeyNotIn, if_neg hk]
      exact keyNotIn_genShape r k hr

theorem keysUnique_of_jlookup : ∀ {fs : JFields} {k : String} {x : JSValue},
    keysUniqueF fs = true → jlookup fs k = some x → keysUnique x = true
  | .nil, _, _, _, h => by simp [jlookup] at h
  | .cons k' v r, k, x, hu, h => by
    have h1 : keysUnique v = true := by
      simp [keysUniqueF, Bool.and_eq_true] at hu
      exact hu.1
    have h2 : keysUniqueF r = true := by
      simp [keysUniqueF, Bool.and_eq_true] at hu
      exact hu.2
    simp only [jlookup] at h
    split at h
    · cases h
      exact h1
    · exact keysUnique_of_jlookup h2 h

theorem keysUnique_getIndex0 (v : JSValue) (h : keysUnique v = true) :
    keysUnique (getIndex0 v) = true := by
  cases v with
  | undefined => simp [getIndex0, keysUnique]
  | null => simp [getIndex0, keysUnique]
  | bool b => simp [getIndex0, keysUnique]
  | num n => simp [getIndex0, keysUnique]
  | str s => simp [getIndex0, keysUnique]
  | arr xs =>
    cases xs with
    | nil => simp [getIndex0, keysUnique]
    | cons x r =>
      simp only [getIndex0]
      simp [keysUnique, keysUniqueL, Bool.and_eq_true] at h
      exact h.1
  | obj fs =>
    simp only [getIndex0]
    cases hl : jlookup fs "0" with
    | none => simp [keysUnique]
    | some x =>
      simp only [Option.getD_some]
      have huf : keysUniqueF fs = true := by
        simp [keysUnique, Bool.and_eq_true] at h
        exact h.2
      exact keysUnique_of_jlookup huf hl

theorem eq_null_or_obj_of_inferObject (v : JSValue) (h : inferDataType v = "object") :
    v = .null ∨ ∃ fs, v = .obj fs := by
  cases v with
  | undefined => simp [inferDataType, hasTypeProp, isArrayJS, typeofJS] at h
  | null => exact Or.inl rfl
  | bool b => simp [inferDataType, hasTypeProp, isArrayJS, typeofJS] at h
  | num n => simp [inferDataType, hasTypeProp, isArrayJS, typeofJS] at h
  | str s => simp [inferDataType, hasTypeProp, isArrayJS, typeofJS] at h
  | arr xs => simp [inferDataType, hasTypeProp, isArrayJS, typeofJS] at h
  | obj fs => exact Or.inr ⟨fs, rfl⟩

/-- Joint strong induction: on a duplicate-key-free template the synthesizer
produces a schema whose leaves are all nullable and whose object nodes carry
no duplicated keys. -/
theorem gen_nice : ∀ n : Nat,
    (∀ t : JSValue, sizeOf t ≤ n → keysUnique t = true →
      allLeavesNullable (generateDynamicSchema t) = true ∧
      schemaKeysNodup (generateDynamicSchema t) = true) ∧
    (∀ fs : JFields, sizeOf fs ≤ n → fieldsKeysFresh fs = true → keysUniqueF fs = true →
      allLeavesNullableF (genShape fs) = true ∧ schemaShapeNodup (genShape fs) = true) := by
  intro n
  induction n with
  | zero =>
    constructor
    · intro t h _
      exfalso
      cases t <;> simp at h
    · intro fs h _ _
      exfalso
      cases fs <;> simp at h
  | succ n ih =>
    constructor
    · intro t hsz hku
      by_cases h1 : inferDataType t = "object"
      · rcases eq_null_or_obj_of_inferObject t h1 with rfl | ⟨fs, rfl⟩
        · rw [gen_null_eq]
          simp [allLeavesNullable, allLeavesNullableF, schemaKeysNodup, schemaShapeNodup]
        · rw [gen_obj_eq fs h1]
          have hfs : sizeOf fs ≤ n := by
            simp at hsz
            omega
          have hfresh : fieldsKeysFresh fs = true := by
            simp [keysUnique, Bool.and_eq_true] at hku
            exact hku.1
          have huf : keysUniqueF fs = true := by
            simp [keysUnique, Bool.and_eq_true] at hku
            exact hku.2
          have hq := ih.2 fs hfs hfresh huf
          simpa [allLeavesNullable, schemaKeysNodup] using hq
      · by_cases h2 : inferDataType t = "array"
        · rw [gen_array_eq t h2]
          have hlt := sizeOf_getIndex0_lt t h2
          have hsub : sizeOf (getIndex0 t) ≤ n := by omega
          have hk := keysUnique_getIndex0 t hku
          have hp := ih.1 (getIndex0 t) hsub hk
          simpa [allLeavesNullable, schemaKeysNodup] using hp
        · by_cases h3 : inferDataType t = "string"
          · rw [gen_string_eq t h3]
            simp [allLeavesNullable, schemaKeysNodup]
          · by_cases h4 : inferDataType t = "boolean"
            · rw [gen_boolean_eq t h4]
              simp [allLeavesNullable, schemaKeysNodup]
            · by_cases h5 : inferDataType t = "number"
              · rw [gen_number_eq t h5]
                simp [allLeavesNullable, schemaKeysNodup]
              · rw [gen_other_eq t (by simp [typesList, h1, h2, h3, h4, h5])]
                simp [allLeavesNullable, schemaKeysNodup]
    · intro fs hsz hfresh huf
      cases fs with
      | nil =>
        rw [genShape_nil]
        simp [allLeavesNullableF, schemaShapeNodup]
      | cons k x r =>
        have hszx : sizeOf x ≤ n := by
          simp at hsz
          omega
        have hszr : sizeOf r ≤ n := by
          simp at hsz
          omega
        have hkr : keyNotIn k r = true := by
          simp [fieldsKeysFresh, Bool.and_eq_true] at hfresh
          exact hfresh.1
        have hfr : fieldsKeysFresh r = true := by
          simp [fieldsKeysFresh, Bool.and_eq_true] at hfresh
          exact hfresh.2
        have hux : keysUnique x = true := by
          simp [keysUniqueF, Bool.and_eq_true] at huf
          exact huf.1
        have hur : keysUniqueF r = true := by
          simp [keysUniqueF, Bool.and_eq_true] at huf
          exact huf.2
        by_cases hty : k = "type"
        · rw [genShape_cons]
          simp only [if_pos hty]
          exact ih.2 r hszr hfr hur
        · rw [genShape_cons]
          simp only [if_neg hty]
          have hx := ih.1 x hszx hux
          have hr2 := ih.2 r hszr hfr hur
          constructor
          · simp [allLeavesNullableF, hx.1, hr2.1]
          · simp [schemaShapeNodup, hx.2, hr2.2, keyNotIn_genShape r k hkr]

/-- Claim C5: for every duplicate-key-free template, every leaf of the
synthesized schema is nullable, and the document that mirrors that
shape with `null` at every leaf validates successfully against the schema
(Valibot returns it unchanged rather than throwing). -/
theorem synthesized_nullDoc_validates (t : JSValue) (h : keysUnique t = true) :
    allLeavesNullable (generateDynamicSchema t) = true ∧
    vparse (generateDynamicSchema t) (nullDocOf (generateDynamicSchema t)) =
      some (nullDocOf (generateDynamicSchema t)) := by
  obtain ⟨h1, h2⟩ := (gen_nice (sizeOf t)).1 t le_rfl h
  exact ⟨h1, vparse_nullDoc _ h1 h2⟩

/-- Witness for C5 at the specified example template `{name: "x", score: 1}`. -/
theorem synthesized_nullDoc_validates_witness :
    keysUnique (.obj (.cons "name" (.str "x") (.cons "score" (.num 1) .nil))) = true ∧
    (allLeavesNullable
        (generateDynamicSchema (.obj (.cons "name" (.str "x") (.cons "score" (.num 1) .nil)))) = true ∧
      vparse (generateDynamicSchema (.obj (.cons "name" (.str "x") (.cons "score" (.num 1) .nil))))
          (nullDocOf (generateDynamicSchema (.obj (.cons "name" (.str "x") (.cons "score" (.num 1) .nil))))) =
        some (nullDocOf (generateDynamicSchema (.obj (.cons "name" (.str "x") (.cons "score" (.num 1) .nil)))))) :=
  ⟨by decide, synthesized_nullDoc_validates _ (by decide)⟩

/-! Shape equivalence of templates: same tree structure and same inferred
kind at every position, ignoring the `"type"` bookkeeping fields that the
synthesizer skips and ignoring leaf values. -/

/-- The fields the `for key in schema` loop of the object branch visits, in
order: the own fields of the object except the literal key `"type"`. -/
def nonTypeFieldsF : JFields → JFields
  | .nil => .nil
  | .cons k v r => if k = "type" then nonTypeFieldsF r else .cons k v (nonTypeFieldsF r)

/-- Fields visited by the object branch for an arbitrary node (`for key in`
iterates nothing on non-objects such as `null`). -/
def nonTypeFields : JSValue → JFields
  | .obj fs => nonTypeFieldsF fs
  | _ => .nil

mutual

inductive SameShape : JSValue → JSValue → Prop where
  | leaf (a b : JSValue) (h : inferDataType a = inferDataType b)
      (hno : inferDataType a ≠ "object") (hna : inferDataType a ≠ "array") : SameShape a b
  | object (a b : JSValue) (ha : inferDataType a = "object") (hb : inferDataType b = "object")
      (hf : SameShapeF (nonTypeFields a) (nonTypeFields b)) : SameShape a b
  | array (a b : JSValue) (ha : inferDataType a = "array") (hb : inferDataType b = "array")
      (h : SameShape (getIndex0 a) (getIndex0 b)) : SameShape a b

inductive SameShapeF : JFields → JFields → Prop where
  | nil : SameShapeF .nil .nil
  | cons (k : String) (v w : JSValue) (r s : JFields) :
      SameShape v w → SameShapeF r s → SameShapeF (.cons k v r) (.cons k w s)

end

theorem genShape_nonTypeFieldsF : ∀ fs : JFields, genShape fs = genShape (nonTypeFieldsF fs)
  | .nil => rfl
  | .cons k x r => by
    rw [genShape_cons]
    by_cases hty : k = "type"
    · simp only [nonTypeFieldsF, if_pos hty]
      exact genShape_nonTypeFieldsF r
    · simp only [nonTypeFieldsF, if_neg hty]
      rw [genShape_cons, if_neg hty, genShape_nonTypeFieldsF r]

/-- The object branch of the synthesizer, uniformly over the two node forms
(`null` and object) that infer to `"object"`. -/
theorem gen_object_nt (v : JSValue) (h : inferDataType v = "object") :
    generateDynamicSchema v = .vobject (genShape (nonTypeFields v)) := by
  rcases eq_null_or_obj_of_inferObject v h with rfl | ⟨fs, rfl⟩
  · rw [gen_null_eq]
    simp only [nonTypeFields]
    rw [genShape_nil]
  · rw [gen_obj_eq fs h]
    simp only [nonTypeFields]
    rw [genShape_nonTypeFieldsF fs]

theorem typesList_mem_of_ne (k : String) (h1 : k ≠ "object") (h2 : k ≠ "array")
    (h3 : k ≠ "string") (h4 : k ≠ "boolean") (h5 : k ≠ "number") : k ∉ typesList := by
  simp [typesList, h1, h2, h3, h4, h5]

/-- Claim C6: schema synthesis depends only on the shape of the template.  If two
templates have the same tree structure and the same inferred kind at every
position (leaf values free to differ), the synthesizer yields identical
schemas; determinism on one template is the reflexive instance (the embedded
synthesizer is a pure function). -/
theorem synthesize_shape_determined : ∀ (a b : JSValue), SameShape a b →
    generateDynamicSchema a = generateDynamicSchema b :=
  @SameShape.rec
    (fun a b _ => generateDynamicSchema a = generateDynamicSchema b)
    (fun fa fb _ => genShape fa = genShape fb)
    (fun a b h hno hna => by
      show generateDynamicSchema a = generateDynamicSchema b
      by_cases h3 : inferDataType a = "string"
      · rw [gen_string_eq a h3, gen_string_eq b (h.symm.trans h3)]
      · by_cases h4 : inferDataType a = "boolean"
        · rw [gen_boolean_eq a h4, gen_boolean_eq b (h.symm.trans h4)]
        · by_cases h5 : inferDataType a = "number"
          · rw [gen_number_eq a h5, gen_number_eq b (h.symm.trans h5)]
          · have hm : inferDataType a ∉ typesList :=
              typesList_mem_of_ne _ hno hna h3 h4 h5
            rw [gen_other_eq a hm, gen_other_eq b (h ▸ hm)])
    (fun a b ha hb _ ihf => by
      show generateDynamicSchema a = generateDynamicSchema b
      have ihf2 : genShape (nonTypeFields a) = genShape (nonTypeFields b) := ihf
      rw [gen_object_nt a ha, gen_object_nt b hb, ihf2])
    (fun a b ha hb _ ih => by
      show generateDynamicSchema a = generateDynamicSchema b
      have ih2 : generateDynamicSchema (getIndex0 a) = generateDynamicSchema (getIndex0 b) := ih
      rw [gen_array_eq a ha, gen_array_eq b hb, ih2])
    rfl
    (fun k v w r s _ _ ihv ihr => by
      show genShape (.cons k v r) = genShape (.cons k w s)
      have ihv2 : generateDynamicSchema v = generateDynamicSchema w := ihv
      have ihr2 : genShape r = genShape s := ihr
      rw [genShape_cons, genShape_cons]
      by_cases hty : k = "type"
      · rw [if_pos hty, if_pos hty]
        exact ihr2
      · rw [if_neg hty, if_neg hty, ihv2, ihr2])

/-- Witness for C6 at the specified example: `{age: 30}` and `{age: 0}` have
the same shape and receive identical schemas. -/
theorem synthesize_shape_determined_witness :
    generateDynamicSchema (.obj (.cons "age" (.num 30) .nil)) =
      generateDynamicSchema (.obj (.cons "age" (.num 0) .nil)) :=
  synthesize_shape_determined _ _
    (SameShape.object _ _ (by decide) (by decide)
      (SameShapeF.cons "age" _ _ _ _
        (SameShape.leaf _ _ (by decide) (by decide) (by decide))
        SameShapeF.nil))

/-! The retryable generation driver.  `RetryablePromise.retry(retries, executor)`
runs the executor once; a resolved promise is returned as-is, a rejected one
is caught and retried while `retries > 0` (else the rejection is re-raised),
and a promise that never settles is awaited forever.  The executor may behave
differently on each invocation, so attempts are indexed by invocation number. -/

inductive GenError where
  | jsonParseError
  | schemaError
deriving DecidableEq, Repr

/-- How one invocation of the promise executor can end: `resolve(v)` was
called, `reject(e)` was called, or neither (the promise stays pending). -/
inductive AttemptOut (α : Type) where
  | resolved (v : α)
  | rejectedA (e : GenError)
  | unsettledA
deriving DecidableEq, Repr

/-- How the own promise of the driver can end. -/
inductive DriveResult (α : Type) where
  | done (v : α)
  | failedD (e : GenError)
  | pending
deriving DecidableEq, Repr

/-- Definition `RetryablePromise.retry` from the source, together with the number of
executor invocations performed, starting from invocation index `k`:

`return new RetryablePromise(executor).catch((error) =>`
`  retries > 0 ? RetryablePromise.retry(retries - 1, executor) : Promise.reject(error));` -/
def retryDrive {α : Type} (retries : Nat) (att : Nat → AttemptOut α) (k : Nat) :
    DriveResult α × Nat :=
  match att k with
  | .resolved v => (.done v, 1)
  | .unsettledA => (.pending, 1)
  | .rejectedA e =>
    match retries with
    | r + 1 =>
      let p := retryDrive r att (k + 1)
      (p.1, p.2 + 1)
    | 0 => (.failedD e, 1)

theorem retryDrive_count_le {α : Type} : ∀ (retries : Nat) (att : Nat → AttemptOut α) (k : Nat),
    (retryDrive retries att k).2 ≤ retries + 1
  | 0, att, k => by
    rw [retryDrive.eq_def]
    split <;> simp
  | r + 1, att, k => by
    rw [retryDrive.eq_def]
    split
    · simp
    · simp
    · have := retryDrive_count_le r att (k + 1)
      simp
      omega

theorem retryDrive_count_pos {α : Type} (retries : Nat) (att : Nat → AttemptOut α) (k : Nat) :
    1 ≤ (retryDrive retries att k).2 := by
  cases retries <;> (rw [retryDrive.eq_def]; split <;> simp)

theorem retryDrive_first_success {α : Type} (retries : Nat) (att : Nat → AttemptOut α)
    (k : Nat) (v : α) (h : att k = .resolved v) :
    retryDrive retries att k = (.done v, 1) := by
  cases retries <;> (rw [retryDrive.eq_def]; simp [h])

theorem retryDrive_all_fail {α : Type} : ∀ (n : Nat) (att : Nat → AttemptOut α) (k : Nat),
    (∀ i, i ≤ n → ∃ e, att (k + i) = .rejectedA e) →
    ∃ e, att (k + n) = .rejectedA e ∧ (retryDrive n att k).1 = .failedD e
  | 0, att, k, h => by
    obtain ⟨e, he⟩ := h 0 (le_refl 0)
    rw [Nat.add_zero] at he
    refine ⟨e, by simpa using he, ?_⟩
    rw [retryDrive.eq_def]
    simp [he]
  | n + 1, att, k, h => by
    obtain ⟨e0, he0⟩ := h 0 (Nat.zero_le _)
    rw [Nat.add_zero] at he0
    have h' : ∀ i, i ≤ n → ∃ e, att (k + 1 + i) = .rejectedA e := by
      intro i hi
      have := h (i + 1) (by omega)
      have harith : k + (i + 1) = k + 1 + i := by omega
      rwa [harith] at this
    obtain ⟨e, he, hr⟩ := retryDrive_all_fail n att (k + 1) h'
    have harith : k + (n + 1) = k + 1 + n := by omega
    refine ⟨e, by rwa [harith], ?_⟩
    rw [retryDrive.eq_def]
    simp [he0]
    exact hr

/-- If invocations `k, …, k + j - 1` all reject and invocation `k + j` is
the first to resolve, a driver holding budget at least `j` returns that
resolved value after exactly `j + 1` invocations — the success
short-circuits, no further invocation happens. -/
theorem retryDrive_success_at {α : Type} : ∀ (n : Nat) (att : Nat → AttemptOut α) (k j : Nat)
    (v : α), j ≤ n → (∀ i, i < j → ∃ e, att (k + i) = .rejectedA e) →
    att (k + j) = .resolved v → retryDrive n att k = (.done v, j + 1)
  | n, att, k, 0, v, _, _, hs => by
    rw [Nat.add_zero] at hs
    exact retryDrive_first_success n att k v hs
  | n, att, k, j + 1, v, hj, hrej, hs => by
    obtain ⟨e0, he0⟩ := hrej 0 (Nat.succ_pos j)
    rw [Nat.add_zero] at he0
    cases n with
    | zero => omega
    | succ m =>
      have hrej2 : ∀ i, i < j → ∃ e, att (k + 1 + i) = .rejectedA e := by
        intro i hi
        have := hrej (i + 1) (by omega)
        have harith : k + (i + 1) = k + 1 + i := by omega
        rwa [harith] at this
      have hs2 : att (k + 1 + j) = .resolved v := by
        have harith : k + (j + 1) = k + 1 + j := by omega
        rwa [harith] at hs
      have ih := retryDrive_success_at m att (k + 1) j v (by omega) hrej2 hs2
      rw [retryDrive.eq_def]
      simp [he0, ih]

/-- Claim C2: for every retry budget `n` and every attempt behaviour, the
driver invokes the attempt at most `n + 1` times; if the first invocation
resolves it returns that result after exactly one invocation; more
generally, whenever the first success occurs at invocation `j ≤ n` (all
earlier invocations having rejected), the driver returns exactly that
result after exactly `j + 1` invocations, with no further invocations; and
if every invocation in budget rejects, the driver propagates the final
rejection. -/
theorem retry_bound_spec {α : Type} (n : Nat) (att : Nat → AttemptOut α) :
    (retryDrive n att 0).2 ≤ n + 1 ∧
    (∀ v : α, att 0 = .resolved v → retryDrive n att 0 = (.done v, 1)) ∧
    (∀ (j : Nat) (v : α), j ≤ n → (∀ i, i < j → ∃ e, att i = .rejectedA e) →
      att j = .resolved v → retryDrive n att 0 = (.done v, j + 1)) ∧
    ((∀ i, i ≤ n → ∃ e, att i = .rejectedA e) →
      ∃ e, att n = .rejectedA e ∧ (retryDrive n att 0).1 = .failedD e) := by
  refine ⟨retryDrive_count_le n att 0, fun v hv => retryDrive_first_success n att 0 v hv,
    ?_, ?_⟩
  · intro j v hj hrej hs
    exact retryDrive_success_at n att 0 j v hj (by simpa using hrej) (by simpa using hs)
  · intro h
    have := retryDrive_all_fail n att 0 (by simpa using h)
    simpa using this

example :
    retryDrive 2 (fun i => if i < 2 then .rejectedA .jsonParseError else .resolved (JSValue.num 42)) 0 =
      (.done (JSValue.num 42), 3) := by
  decide

example :
    retryDrive 3 (fun i => if i < 1 then .rejectedA .jsonParseError else .resolved (JSValue.num 7)) 0 =
      (.done (JSValue.num 7), 2) := by
  decide

/-! The generation attempt executor of the orchestrator:

`async (resolve, reject) => {`
`  const openaiResponse = await openai.chat.completions.create({...});`  — outside any try/catch
`  const answer = openaiResponse.choices[0].message.content;`
`  if (openaiResponse.usage?.total_tokens) tokensUsed += openaiResponse.usage.total_tokens;`
`  try { const jsonAnswer = JSON.parse(answer!); resolve(parse(dynamicSchema, jsonAnswer)); }`
`  catch (error) { reject(error); } }`

The executor is an `async` function handed to the `Promise` constructor: if
the external call throws, the promise of the async function rejects, but
`resolve`/`reject` of the constructed promise are never called, so the
constructed promise never settles. -/

/-- One behaviour of the external generator: the transport call throws, or
it replies with a token usage count and either unparseable text (`none`) or
a parsed JSON document. -/
inductive GenAttempt where
  | transportThrow
  | reply (tokens : Nat) (answer : Option JSValue)
deriving DecidableEq, Repr

/-- Outcome of one executor invocation given the generator behaviour. -/
def executorOutcome (schema : VSchema) (g : GenAttempt) : AttemptOut JSValue :=
  match g with
  | .transportThrow => .unsettledA
  | .reply _ answer =>
    match answer with
    | none => .rejectedA .jsonParseError
    | some j =>
      match vparse schema j with
      | some out => .resolved out
      | none => .rejectedA .schemaError

/-- Tokens the executor adds to the running counter for one invocation: a
throwing transport call adds nothing (the throw precedes the usage read). -/
def executorTokens : GenAttempt → Nat
  | .transportThrow => 0
  | .reply t _ => t

/-- Claim C3 fails for the transport failure mode: a throwing external call
leaves the executor promise unsettled, so the driver performs a single
invocation and then stays pending forever — it neither retries nor
propagates, even with retry budget remaining.  JSON-parse and
schema-validation failures, by contrast, always settle the promise. -/
theorem transport_throw_hangs :
    executorOutcome (.vnullable .vstring) .transportThrow = .unsettledA ∧
    retryDrive 1 (fun _ => executorOutcome (.vnullable .vstring) .transportThrow) 0 =
      (.pending, 1) ∧
    (∀ (schema : VSchema) (tokens : Nat) (answer : Option JSValue),
      executorOutcome schema (.reply tokens answer) ≠ .unsettledA) := by
  refine ⟨rfl, rfl, ?_⟩
  intro schema tokens answer
  cases answer with
  | none => simp [executorOutcome]
  | some j =>
    cases hv : vparse schema j <;> simp [executorOutcome, hv]

/-! The `POST /v1` request orchestrator.  External collaborators (header
lookup, key record, credit record, token estimate, generator behaviour)
enter as an environment; the observable effects of the handler are the HTTP
response, the `tokens_used` inserts, the credit updates and the number of
external generation calls issued. -/

/-- Literal response message for a missing or length-invalid `X-API-KEY`
header (the outermost catch returns this fixed string for any header
validation failure). -/
def headerMissingMsg : String := "Unauthorized: X-API-KEY header not found!"

/-- Literal response message for an unknown API key. -/
def invalidKeyMsg : String := "Unauthorized: Invalid API Key"

/-- Literal response message for a caller with no credit record. -/
def noSubscriptionMsg : String :=
  "Unauthorized: Please completed the subscription process in the dashboard (https://www.data2json.xyz/dashboard)"

/-- Literal response message of the metering gate denial. -/
def notEnoughCreditsMsg : String := "Unauthorized: Not enough credits available."

/-- The retry budget the orchestrator passes to `RetryablePromise.retry`. -/
def maxRetriesConfig : Nat := 1

inductive HResponse where
  | success (data : JSValue) (tokensUsed : Nat)
  | badRequest (issues : List (String × String))
  | unauthorized (msg : String)
deriving DecidableEq, Repr

/-- The observable outcome of one request: the response sent (`none` when
the handler falls through without responding), the rows inserted into
`tokens_used`, the credit-balance updates issued, and how many external
generation calls were made. -/
structure HandlerResult where
  response : Option HResponse
  usageInserts : List Nat
  creditUpdates : List Int
  generatorCalls : Nat
deriving DecidableEq, Repr

/-- External state and collaborator behaviour for one request: the
`X-API-KEY` header, the key-record and credit-record lookups, the parsed
request body, the tokenizer estimate for the prospective prompt, and the
external generator behaviour on each attempt. -/
structure RequestEnv where
  apiKey : Option String
  keyRecord : Option String
  credits : Option Int
  body : JSValue
  estimate : Nat
  attempts : Nat → GenAttempt

/-- Body validation `parse(object({input: string(), format: looseObject({})}), body)`,
returning the per-top-level-field issue list a `ValiError` carries.  A
non-object body raises one root issue with an empty path, which the
issue-collection loop of the handler skips, hence the empty list. -/
def parsePayload (body : JSValue) : Except (List (String × String)) (String × JSValue) :=
  match body with
  | .obj fields =>
    match jlookup fields "input", jlookup fields "format" with
    | some (.str s), some (.obj fs) => .ok (s, .obj fs)
    | i, f =>
      .error
        ((match i with
          | some (.str _) => []
          | _ => [("input", "Invalid type")]) ++
         (match f with
          | some (.obj _) => []
          | _ => [("format", "Invalid type")]))
  | _ => .error []

/-- Value of `tokensUsed` after `n` executor invocations: the sum of the usage the
first `n` attempts reported (`tokensUsed += openaiResponse.usage.total_tokens`
runs on every reply, also on attempts that subsequently reject). -/
def attemptTokensSum (att : Nat → GenAttempt) : Nat → Nat
  | 0 => 0
  | n + 1 => attemptTokensSum att n + executorTokens (att n)

/-- The `POST /v1` handler.  Stages in source order: header validation
(outer catch → fixed 401), key-record lookup (`null` → 401 invalid key),
credit lookup (`null` → 401 subscription), body validation (a `ValiError`
here is caught by the inner empty `catch (error) {}` — no response), the
metering gate (`!(+credits > usageEstimate.usedTokens)` → 401), then schema
synthesis and the retry-driven generation; on a resolved drive the usage
row is inserted and the balance decremented once, on a rejected or pending
drive the handler falls through the empty catch with no writes. -/
def handle (env : RequestEnv) : HandlerResult :=
  match env.apiKey with
  | none => ⟨some (.unauthorized headerMissingMsg), [], [], 0⟩
  | some key =>
    if key.length < 24 ∨ 32 < key.length then
      ⟨some (.unauthorized headerMissingMsg), [], [], 0⟩
    else
      match env.keyRecord with
      | none => ⟨some (.unauthorized invalidKeyMsg), [], [], 0⟩
      | some _ =>
        match env.credits with
        | none => ⟨some (.unauthorized noSubscriptionMsg), [], [], 0⟩
        | some balance =>
          match parsePayload env.body with
          | .error _ => ⟨none, [], [], 0⟩
          | .ok (_, format) =>
            if ¬ ((env.estimate : Int) < balance) then
              ⟨some (.unauthorized notEnoughCreditsMsg), [], [], 0⟩
            else
              match retryDrive maxRetriesConfig
                  (fun i => executorOutcome (generateDynamicSchema format) (env.attempts i)) 0 with
              | (.done v, calls) =>
                ⟨some (.success v (attemptTokensSum env.attempts calls)),
                  [attemptTokensSum env.attempts calls],
                  [balance - (attemptTokensSum env.attempts calls : Int)], calls⟩
              | (.failedD _, calls) => ⟨none, [], [], calls⟩
              | (.pending, calls) => ⟨none, [], [], calls⟩

/-- Claim C1: with all earlier stages passing, the metering gate denies with
the insufficient-credits message exactly when `balance ≤ estimate` (so a
balance equal to the estimate is denied), and whenever `balance > estimate`
the request proceeds to at least one external generation call. -/
theorem metering_strict (env : RequestEnv) (key uid : String) (balance : Int)
    (inp : String) (fmt : JSValue)
    (hk : env.apiKey = some key) (hlen : 24 ≤ key.length ∧ key.length ≤ 32)
    (hrec : env.keyRecord = some uid) (hcr : env.credits = some balance)
    (hbody : parsePayload env.body = .ok (inp, fmt)) :
    ((handle env).response = some (.unauthorized notEnoughCreditsMsg) ↔
      balance ≤ (env.estimate : Int)) ∧
    ((env.estimate : Int) < balance → 1 ≤ (handle env).generatorCalls) := by
  have hlen2 : ¬ (key.length < 24 ∨ 32 < key.length) := by omega
  by_cases hb : (env.estimate : Int) < balance
  · rcases hdr : retryDrive maxRetriesConfig
        (fun i => executorOutcome (generateDynamicSchema fmt) (env.attempts i)) 0 with ⟨res, calls⟩
    have hcalls : 1 ≤ calls := by
      have := retryDrive_count_pos maxRetriesConfig
        (fun i => executorOutcome (generateDynamicSchema fmt) (env.attempts i)) 0
      rw [hdr] at this
      exact this
    cases res with
    | done v =>
      have hres : handle env =
          ⟨some (.success v (attemptTokensSum env.attempts calls)),
            [attemptTokensSum env.attempts calls],
            [balance - (attemptTokensSum env.attempts calls : Int)], calls⟩ := by
        simp only [handle, hk, hrec, hcr, hbody]
        rw [if_neg hlen2, if_neg (not_not_intro hb), hdr]
      rw [hres]
      refine ⟨⟨fun hcontra => by simp at hcontra, fun hle => by omega⟩, fun _ => hcalls⟩
    | failedD e =>
      have hres : handle env = ⟨none, [], [], calls⟩ := by
        simp only [handle, hk, hrec, hcr, hbody]
        rw [if_neg hlen2, if_neg (not_not_intro hb), hdr]
      rw [hres]
      refine ⟨⟨fun hcontra => by simp at hcontra, fun hle => by omega⟩, fun _ => hcalls⟩
    | pending =>
      have hres : handle env = ⟨none, [], [], calls⟩ := by
        simp only [handle, hk, hrec, hcr, hbody]
        rw [if_neg hlen2, if_neg (not_not_intro hb), hdr]
      rw [hres]
      refine ⟨⟨fun hcontra => by simp at hcontra, fun hle => by omega⟩, fun _ => hcalls⟩
  · have hres : handle env = ⟨some (.unauthorized notEnoughCreditsMsg), [], [], 0⟩ := by
      simp only [handle, hk, hrec, hcr, hbody]
      rw [if_neg hlen2, if_pos hb]
    rw [hres]
    constructor
    · simp
      omega
    · intro hcontra
      exact absurd hcontra hb

/-- Environment of the C1 witness: authorized caller, balance 100, estimate
100, well-formed body. -/
def envBoundary : RequestEnv where
  apiKey := some "abcdefghijklmnopqrstuvwx"
  keyRecord := some "user1"
  credits := some 100
  body := .obj (.cons "input" (.str "hi") (.cons "format" (.obj .nil) .nil))
  estimate := 100
  attempts := fun _ => .transportThrow

/-- Witness for C1 at the specified boundary example: balance 100 against
estimate 100 is denied with the insufficient-credits message. -/
theorem metering_strict_witness :
    (handle envBoundary).response = some (.unauthorized notEnoughCreditsMsg) :=
  ((metering_strict envBoundary "abcdefghijklmnopqrstuvwx" "user1" 100 "hi" (.obj .nil)
      rfl (by decide) rfl rfl rfl).1).mpr (by decide)

/-- Claim C9: a request denied by the metering gate receives the 401
insufficient-credits response, and causes zero external generation calls,
zero usage inserts and zero credit updates — all generation and persistence
state is untouched. -/
theorem denied_request_no_effects (env : RequestEnv) (key uid : String) (balance : Int)
    (inp : String) (fmt : JSValue)
    (hk : env.apiKey = some key) (hlen : 24 ≤ key.length ∧ key.length ≤ 32)
    (hrec : env.keyRecord = some uid) (hcr : env.credits = some balance)
    (hbody : parsePayload env.body = .ok (inp, fmt))
    (hdeny : balance ≤ (env.estimate : Int)) :
    handle env = ⟨some (.unauthorized notEnoughCreditsMsg), [], [], 0⟩ := by
  have hlen2 : ¬ (key.length < 24 ∨ 32 < key.length) := by omega
  have hb : ¬ ((env.estimate : Int) < balance) := by omega
  simp only [handle, hk, hrec, hcr, hbody]
  rw [if_neg hlen2, if_pos hb]

/-- Environment of the C9 witness: balance 5 strictly below estimate 100,
with a generator that would succeed if it were ever called. -/
def envDenied : RequestEnv where
  apiKey := some "abcdefghijklmnopqrstuvwx"
  keyRecord := some "user1"
  credits := some 5
  body := .obj (.cons "input" (.str "hi") (.cons "format" (.obj .nil) .nil))
  estimate := 100
  attempts := fun _ => .reply 9 (some (.obj .nil))

/-- Witness for C9: the concrete denied request responds 401 and writes and
calls nothing. -/
theorem denied_request_no_effects_witness :
    handle envDenied = ⟨some (.unauthorized notEnoughCreditsMsg), [], [], 0⟩ :=
  denied_request_no_effects envDenied "abcdefghijklmnopqrstuvwx" "user1" 5 "hi" (.obj .nil)
    rfl (by decide) rfl rfl rfl (by decide)

/-- Helper: when the drive resolves, the handler responds 200 with the
accumulated token count and writes exactly one usage row and one balance
update. -/
theorem run_done_result (env : RequestEnv) (key uid : String) (balance : Int)
    (inp : String) (fmt : JSValue) (v : JSValue) (calls : Nat)
    (hk : env.apiKey = some key) (hlen : 24 ≤ key.length ∧ key.length ≤ 32)
    (hrec : env.keyRecord = some uid) (hcr : env.credits = some balance)
    (hbody : parsePayload env.body = .ok (inp, fmt))
    (hallow : (env.estimate : Int) < balance)
    (hrun : retryDrive maxRetriesConfig
        (fun i => executorOutcome (generateDynamicSchema fmt) (env.attempts i)) 0 =
      (.done v, calls)) :
    handle env =
      ⟨some (.success v (attemptTokensSum env.attempts calls)),
        [attemptTokensSum env.attempts calls],
        [balance - (attemptTokensSum env.attempts calls : Int)], calls⟩ := by
  have hlen2 : ¬ (key.length < 24 ∨ 32 < key.length) := by omega
  simp only [handle, hk, hrec, hcr, hbody]
  rw [if_neg hlen2, if_neg (not_not_intro hallow), hrun]

/-- Helper: when every attempt in budget rejects, the `await` of the handler
throws into the empty `catch (error) {}`: no response, no usage row, no
balance update, though `calls` external calls were made. -/
theorem run_failed_result (env : RequestEnv) (key uid : String) (balance : Int)
    (inp : String) (fmt : JSValue) (e : GenError) (calls : Nat)
    (hk : env.apiKey = some key) (hlen : 24 ≤ key.length ∧ key.length ≤ 32)
    (hrec : env.keyRecord = some uid) (hcr : env.credits = some balance)
    (hbody : parsePayload env.body = .ok (inp, fmt))
    (hallow : (env.estimate : Int) < balance)
    (hrun : retryDrive maxRetriesConfig
        (fun i => executorOutcome (generateDynamicSchema fmt) (env.attempts i)) 0 =
      (.failedD e, calls)) :
    handle env = ⟨none, [], [], calls⟩ := by
  have hlen2 : ¬ (key.length < 24 ∨ 32 < key.length) := by omega
  simp only [handle, hk, hrec, hcr, hbody]
  rw [if_neg hlen2, if_neg (not_not_intro hallow), hrun]

/-- Claim C7 (amended): on a run whose drive resolves after `calls`
attempts, the single persisted usage row carries exactly the sum of the
token counts reported by all executed attempts, failed ones included, and
it is written once at completion.  (On a run whose attempts all fail, the
swallowing catch writes no row at all — see the counterexample.) -/
theorem usage_recorded_once_on_success (env : RequestEnv) (key uid : String) (balance : Int)
    (inp : String) (fmt : JSValue) (v : JSValue) (calls : Nat)
    (hk : env.apiKey = some key) (hlen : 24 ≤ key.length ∧ key.length ≤ 32)
    (hrec : env.keyRecord = some uid) (hcr : env.credits = some balance)
    (hbody : parsePayload env.body = .ok (inp, fmt))
    (hallow : (env.estimate : Int) < balance)
    (hrun : retryDrive maxRetriesConfig
        (fun i => executorOutcome (generateDynamicSchema fmt) (env.attempts i)) 0 =
      (.done v, calls)) :
    (handle env).usageInserts = [attemptTokensSum env.attempts calls] ∧
    (handle env).usageInserts.length = 1 ∧
    (handle env).response = some (.success v (attemptTokensSum env.attempts calls)) := by
  rw [run_done_result env key uid balance inp fmt v calls hk hlen hrec hcr hbody hallow hrun]
  exact ⟨rfl, rfl, rfl⟩

/-- Environment of the C7 witness: the first attempt reports 5 tokens and
replies unparseable text, the second reports 7 tokens and replies a valid
document; the recorded usage must be 12. -/
def envRetry : RequestEnv where
  apiKey := some "abcdefghijklmnopqrstuvwx"
  keyRecord := some "user1"
  credits := some 1000
  body := .obj (.cons "input" (.str "hi") (.cons "format" (.obj .nil) .nil))
  estimate := 5
  attempts := fun i => if i = 0 then .reply 5 none else .reply 7 (some (.obj .nil))

theorem gen_empty_obj : generateDynamicSchema (.obj .nil) = .vobject .nil := by
  rw [gen_obj_eq _ (by decide), genShape_nil]

/-- Witness for C7: the two-attempt run persists exactly one usage row
holding 5 + 7 = 12 tokens. -/
theorem usage_recorded_once_on_success_witness :
    (handle envRetry).usageInserts = [12] ∧
    (handle envRetry).response = some (.success (.obj .nil) 12) := by
  have hvp : vparse (.vobject .nil) (.obj .nil) = some (.obj .nil) := by
    simp [vparse, vparseFields]
  have ha0 : executorOutcome (VSchema.vobject .nil) (envRetry.attempts 0) =
      .rejectedA .jsonParseError := rfl
  have ha1 : executorOutcome (VSchema.vobject .nil) (envRetry.attempts 1) =
      .resolved (.obj .nil) := by
    simp [envRetry, executorOutcome, hvp]
  have hrun : retryDrive maxRetriesConfig
      (fun i => executorOutcome (generateDynamicSchema (JSValue.obj .nil)) (envRetry.attempts i)) 0 =
      (.done (.obj .nil), 2) := by
    simp only [gen_empty_obj]
    have hstep : retryDrive 0
        (fun i => executorOutcome (VSchema.vobject .nil) (envRetry.attempts i)) 1 =
        (.done (.obj .nil), 1) :=
      retryDrive_first_success 0 _ 1 _ ha1
    rw [show maxRetriesConfig = 1 from rfl, retryDrive.eq_def]
    simp [ha0, hstep]
  obtain ⟨h1, h2, h3⟩ := usage_recorded_once_on_success envRetry "abcdefghijklmnopqrstuvwx"
    "user1" 1000 "hi" (.obj .nil) (.obj .nil) 2 rfl (by decide) rfl rfl rfl (by decide) hrun
  constructor
  · rw [h1]
    decide
  · rw [h3]
    decide

/-- Environment of the C7 counterexample: both attempts report 7 tokens and
reply unparseable text, so the run fails after two attempts. -/
def envExhausted : RequestEnv where
  apiKey := some "abcdefghijklmnopqrstuvwx"
  keyRecord := some "user1"
  credits := some 1000
  body := .obj (.cons "input" (.str "hi") (.cons "format" (.obj .nil) .nil))
  estimate := 5
  attempts := fun _ => .reply 7 none

/-- Claim C7 as stated is false on a run whose attempts all fail: two
attempts run and report 14 tokens in total, yet no usage record at all is
written (the terminal rejection is swallowed), not exactly one. -/
theorem usage_record_counterexample :
    (handle envExhausted).usageInserts = [] ∧
    (handle envExhausted).generatorCalls = 2 ∧
    attemptTokensSum envExhausted.attempts 2 = 14 := by
  have ha : ∀ i, executorOutcome (VSchema.vobject .nil) (envExhausted.attempts i) =
      .rejectedA .jsonParseError := fun _ => rfl
  have hrun : retryDrive maxRetriesConfig
      (fun i => executorOutcome (generateDynamicSchema (JSValue.obj .nil)) (envExhausted.attempts i)) 0 =
      (.failedD .jsonParseError, 2) := by
    simp only [gen_empty_obj]
    have hstep : retryDrive 0
        (fun i => executorOutcome (VSchema.vobject .nil) (envExhausted.attempts i)) 1 =
        (.failedD .jsonParseError, 1) := by
      rw [retryDrive.eq_def]
      simp [ha 1]
    rw [show maxRetriesConfig = 1 from rfl, retryDrive.eq_def]
    simp [ha 0, hstep]
  rw [run_failed_result envExhausted "abcdefghijklmnopqrstuvwx" "user1" 1000 "hi" (.obj .nil)
    .jsonParseError 2 rfl (by decide) rfl rfl rfl (by decide) hrun]
  exact ⟨rfl, rfl, by decide⟩

/-- Claim C8 fails: a request that passes authentication and credit lookup
but whose body does not match `{input: string, format: object}` gets no
response at all — the `ValiError` is raised inside the innermost `try`,
whose `catch (error) {}` is empty, so the per-field 400 branch (attached to
the enclosing `try` around the collaborator lookups) never sees it. -/
theorem invalid_body_swallowed (env : RequestEnv) (key uid : String) (balance : Int)
    (issues : List (String × String))
    (hk : env.apiKey = some key) (hlen : 24 ≤ key.length ∧ key.length ≤ 32)
    (hrec : env.keyRecord = some uid) (hcr : env.credits = some balance)
    (hbody : parsePayload env.body = .error issues) :
    handle env = ⟨none, [], [], 0⟩ := by
  have hlen2 : ¬ (key.length < 24 ∨ 32 < key.length) := by omega
  simp only [handle, hk, hrec, hcr, hbody]
  rw [if_neg hlen2]

/-- Environment of the C8 witness: valid key, key record and credits, but an
empty-object body missing both `input` and `format`. -/
def envBadBody : RequestEnv where
  apiKey := some "abcdefghijklmnopqrstuvwx"
  keyRecord := some "user1"
  credits := some 1000
  body := .obj .nil
  estimate := 5
  attempts := fun _ => .reply 9 (some (.obj .nil))

/-- Witness for C8: the malformed body yields no response and no effects,
rather than the per-field 400. -/
theorem invalid_body_swallowed_witness :
    handle envBadBody = ⟨none, [], [], 0⟩ :=
  invalid_body_swallowed envBadBody "abcdefghijklmnopqrstuvwx" "user1" 1000
    [("input", "Invalid type"), ("format", "Invalid type")] rfl (by decide) rfl rfl rfl

/-- Occurrence of the entry `(k, s)` in a schema shape. -/
inductive SFMem (k : String) (s : VSchema) : SFields → Prop where
  | head (r : SFields) : SFMem k s (.cons k s r)
  | tail (k' : String) (s' : VSchema) (r : SFields) : SFMem k s r → SFMem k s (.cons k' s' r)

/-- If any entry of the shape fails on its named input property, the whole
object validation fails. -/
theorem vparseFields_none (k : String) (s : VSchema) :
    ∀ (sh : SFields), SFMem k s sh → ∀ (dfs : JFields),
      vparse s ((jlookup dfs k).getD .undefined) = none → vparseFields sh dfs = none := by
  intro sh hm
  induction hm with
  | head r =>
    intro dfs hnone
    simp [vparseFields, hnone]
  | tail k' s' r hmem ih =>
    intro dfs hnone
    simp only [vparseFields, ih dfs hnone]
    cases hv : vparse s' ((jlookup dfs k').getD .undefined) <;> simp

/-- The synthesized shape of an object template contains, for every
non-`"type"` field `k ↦ sub` of the template, the entry
`k ↦ generateDynamicSchema sub`. -/
theorem sfMem_genShape : ∀ (fields : JFields) (k : String) (sub : JSValue),
    jlookup fields k = some sub → k ≠ "type" →
    SFMem k (generateDynamicSchema sub) (genShape fields)
  | .nil, k, sub, h, _ => by simp [jlookup] at h
  | .cons k' v r, k, sub, h, hkty => by
    by_cases hk : k' = k
    · subst hk
      have hv : v = sub := by simpa [jlookup] using h
      subst hv
      rw [genShape_cons, if_neg hkty]
      exact SFMem.head (genShape r)
    · have h2 : jlookup r k = some sub := by simpa [jlookup, hk] using h
      rw [genShape_cons]
      by_cases hty : k' = "type"
      · rw [if_pos hty]
        exact sfMem_genShape r k sub h2 hkty
      · rw [if_neg hty]
        exact SFMem.tail k' (generateDynamicSchema v) (genShape r)
          (sfMem_genShape r k sub h2 hkty)

/-- Claim C10: container schemas are not nullable.  If an object template
has a field `k` holding an object-kind node, the synthesized sub-schema at
`k` is a bare (non-nullable) `object(...)` that rejects `null`, so any
candidate document binding `k` to `null` fails validation of the whole
document. -/
theorem container_null_rejected (fields : JFields) (k : String) (sub : JSValue)
    (dfields : JFields)
    (htop : inferDataType (.obj fields) = "object")
    (hlook : jlookup fields k = some sub) (hkty : k ≠ "type")
    (hsub : inferDataType sub = "object")
    (hdoc : jlookup dfields k = some .null) :
    vparse (generateDynamicSchema sub) JSValue.null = none ∧
    vparse (generateDynamicSchema (.obj fields)) (.obj dfields) = none := by
  have hnullsub : vparse (generateDynamicSchema sub) JSValue.null = none := by
    rw [gen_object_nt sub hsub]
    simp [vparse]
  refine ⟨hnullsub, ?_⟩
  rw [gen_obj_eq fields htop]
  have hmem := sfMem_genShape fields k sub hlook hkty
  have hnull : vparse (generateDynamicSchema sub) ((jlookup dfields k).getD .undefined) = none := by
    rw [hdoc]
    simpa using hnullsub
  have hfail := vparseFields_none k (generateDynamicSchema sub) (genShape fields) hmem dfields hnull
  simp [vparse, hfail]

/-- Witness for C10 at template `{profile: {name: "x"}}` and candidate
document `{profile: null}`. -/
theorem container_null_rejected_witness :
    vparse (generateDynamicSchema (.obj (.cons "profile" (.obj (.cons "name" (.str "x") .nil)) .nil)))
      (.obj (.cons "profile" .null .nil)) = none :=
  (container_null_rejected (.cons "profile" (.obj (.cons "name" (.str "x") .nil)) .nil)
    "profile" (.obj (.cons "name" (.str "x") .nil)) (.cons "profile" .null .nil)
    (by decide) rfl (by decide) (by decide) rfl).2

end Data2Json
